import Mathlib

/-
Verification of the ISS urine-tank monitor bot (src/bot.py, src/config.py)
against its natural-language specification.

Modelling conventions:
* Python floats are embedded as rationals (ℚ); the numeric literals the
  claims exercise (multiples of one tenth) are exact in both.
* Python's `int(...)` / `float(...)` string parsers are embedded over ASCII
  content (optional surrounding whitespace, optional sign, decimal digits
  with Python's underscore-grouping rule; for `float` also an optional
  fractional part and exponent).  Non-finite literals such as "inf"/"nan"
  are outside the rational model.
* The subscriber set is embedded as a duplicate-free list of integers;
  set-level statements are made through `List.toFinset`.
* File contents are strings; a missing file is `none`.
* Exceptions caught by the code are modelled by total functions; an
  exception that propagates is an `Except.error`.
* Delivery failures in the notification fan-out are modelled by an oracle
  `fails : ℤ → Bool`; the `try/except` around each send is modelled by the
  fan-out continuing past failed ids.
-/

namespace ISSBot

/-- Value of a big-endian list of ASCII digit characters. -/
def digitsVal (cs : List Char) : ℕ :=
  cs.foldl (fun a c => a * 10 + (c.toNat - 48)) 0

/-- Decimal digit characters of a positive number, most significant first;
the first argument is recursion fuel. -/
def natCharsAux : ℕ → ℕ → List Char
  | 0, _ => []
  | _ + 1, 0 => []
  | fuel + 1, n + 1 => natCharsAux fuel ((n + 1) / 10) ++ [Nat.digitChar ((n + 1) % 10)]

/-- Decimal rendering of a natural number, as Python's `str` produces it. -/
def natChars (n : ℕ) : List Char :=
  if n = 0 then ['0'] else natCharsAux n n

/-- Decimal rendering of a natural number as a string. -/
def natStr (n : ℕ) : String := String.mk (natChars n)

/-- Decimal rendering of an integer, as Python's `str` produces it. -/
def intChars (z : ℤ) : List Char :=
  if z < 0 then '-' :: natChars z.natAbs else natChars z.natAbs

/-- Decimal rendering of an integer as a string. -/
def intStr (z : ℤ) : String := String.mk (intChars z)

/-- Python number literals may not contain two adjacent underscores. -/
def noDoubleUnderscore : List Char → Bool
  | c1 :: c2 :: rest => !(c1 == '_' && c2 == '_') && noDoubleUnderscore (c2 :: rest)
  | _ => true

/-- Python digit-group rule: nonempty, all digits or underscores, and
underscores only between digits. -/
def groupOk (cs : List Char) : Bool :=
  !cs.isEmpty && cs.head? != some '_' && cs.getLast? != some '_' &&
    noDoubleUnderscore cs && cs.all (fun c => c.isDigit || c == '_')

/-- Parse a nonempty digit group (Python underscore rule) to its value. -/
def digitGroup (cs : List Char) : Option ℕ :=
  if groupOk cs then some (digitsVal (cs.filter (fun c => !(c == '_')))) else none

/-- Strip leading and trailing whitespace, as Python's numeric parsers do. -/
def stripWs (cs : List Char) : List Char :=
  ((cs.dropWhile Char.isWhitespace).reverse.dropWhile Char.isWhitespace).reverse

/-- Parse an optional sign followed by a digit group. -/
def signedGroup : List Char → Option ℤ
  | [] => none
  | c :: rest =>
    if c = '+' then (digitGroup rest).map (fun n => Int.ofNat n)
    else if c = '-' then (digitGroup rest).map (fun n => -Int.ofNat n)
    else (digitGroup (c :: rest)).map (fun n => Int.ofNat n)

/-- Model of Python's `int(string)`. -/
def parseIntChars (cs : List Char) : Option ℤ := signedGroup (stripWs cs)

/-- Model of Python's `int(string)` on a `String`. -/
def parseInt (s : String) : Option ℤ := parseIntChars s.data

/-- Split a character list at the first character satisfying `p`; the second
component is `none` when no such character occurs. -/
def splitFirst (p : Char → Bool) : List Char → List Char × Option (List Char)
  | [] => ([], none)
  | c :: rest =>
    if p c then ([], some rest)
    else
      let r := splitFirst p rest
      (c :: r.1, r.2)

/-- Parse a possibly empty digit group; returns the underscore-free digits. -/
def groupOrEmpty (cs : List Char) : Option (List Char) :=
  if cs.isEmpty then some [] else
  if groupOk cs then some (cs.filter (fun c => !(c == '_'))) else none

/-- Model of Python's `float` grammar after the sign: mantissa with optional
fractional part, then an optional exponent. -/
def unsignedFloatChars (cs : List Char) : Option ℚ :=
  let me := splitFirst (fun c => c == 'e' || c == 'E') cs
  let ip := splitFirst (fun c => c == '.') me.1
  match groupOrEmpty ip.1, (match ip.2 with | none => some [] | some fp => groupOrEmpty fp) with
  | some ids, some fds =>
    if ids.isEmpty && fds.isEmpty then none
    else
      match me.2 with
      | none => some ((digitsVal ids : ℚ) + (digitsVal fds : ℚ) / 10 ^ fds.length)
      | some ec =>
        match signedGroup ec with
        | some e => some (((digitsVal ids : ℚ) + (digitsVal fds : ℚ) / 10 ^ fds.length) * 10 ^ e)
        | none => none
  | _, _ => none

/-- Model of Python's `float(string)` for finite decimal literals. -/
def floatChars (cs : List Char) : Option ℚ :=
  match stripWs cs with
  | [] => none
  | c :: rest =>
    if c = '+' then unsignedFloatChars rest
    else if c = '-' then (unsignedFloatChars rest).map (fun q => -q)
    else unsignedFloatChars (c :: rest)

/-- Model of Python's `float(string)` on a `String`. -/
def parseFloat (s : String) : Option ℚ := floatChars s.data

/-- Core of Python's `str.splitlines` for newline-separated text: `acc` holds
the current line reversed. -/
def splitlinesAux : List Char → List Char → List (List Char)
  | [], acc => [acc.reverse]
  | c :: rest, acc =>
    if c = '\n' then acc.reverse :: (if rest.isEmpty then [] else splitlinesAux rest [])
    else splitlinesAux rest (c :: acc)

/-- Python's `str.splitlines` on newline-separated character content. -/
def splitLinesChars (cs : List Char) : List (List Char) :=
  if cs.isEmpty then [] else splitlinesAux cs []

/-- Python's `str.splitlines` on a `String`. -/
def pySplitlines (s : String) : List String := (splitLinesChars s.data).map String.mk

/-- Python's `"\n".join` on character lists. -/
def joinChars : List (List Char) → List Char
  | [] => []
  | [l] => l
  | l :: l' :: ls => l ++ '\n' :: joinChars (l' :: ls)

/-- Round to the nearest integer, ties to even, as float formatting does. -/
def roundHalfEven (q : ℚ) : ℤ :=
  let f := ⌊q⌋
  let r := q - (f : ℚ)
  if r < 1 / 2 then f else if 1 / 2 < r then f + 1 else if f % 2 = 0 then f else f + 1

/-- Model of Python's `f-string` format `:.1f` on the rational embedding. -/
def fmtFixed1 (q : ℚ) : String :=
  let n := roundHalfEven (q * 10)
  (if q < 0 then "-" else "") ++ natStr (n.natAbs / 10) ++ "." ++ natStr (n.natAbs % 10)

/-- Model of Python's `f-string` format `:+.1f` on the rational embedding. -/
def fmtSigned1 (q : ℚ) : String :=
  let n := roundHalfEven (q * 10)
  (if q < 0 then "-" else "+") ++ natStr (n.natAbs / 10) ++ "." ++ natStr (n.natAbs % 10)

/-- Model of Python's `str.startswith`. -/
def pyStartswith (s pre : String) : Bool := pre.data.isPrefixOf s.data

/-- Minimum change in urine tank level to trigger notification (config.py). -/
def MIN_CHANGE_THRESHOLD : ℚ := 1 / 2

/-- How often to check the urine tank level, in seconds (config.py). -/
def CHECK_INTERVAL : ℕ := 60

/-- Mutable state of `ISSUrineTracker`: the subscriber set (as a
duplicate-free list), `last_urine_level`, `current_value`, `connected`. -/
structure TrackerState where
  subscribers : List ℤ
  last_urine_level : ℚ
  current_value : Option ℚ
  connected : Bool

/-- Parse every line with `int`, propagating the first failure, as
`set(map(int, f.read().splitlines()))` does. -/
def mapParse : List String → Option (List ℤ)
  | [] => some []
  | line :: rest =>
    match parseInt line, mapParse rest with
    | some v, some vs => some (v :: vs)
    | _, _ => none

/-- `ISSUrineTracker.load_subscribers`: a missing file yields the empty set;
a line that `int` rejects makes the `ValueError` propagate. -/
def load_subscribers (file : Option String) : Except Unit (List ℤ) :=
  match file with
  | none => Except.ok []
  | some content =>
    match mapParse (pySplitlines content) with
    | none => Except.error ()
    | some vals => Except.ok vals.dedup

/-- `ISSUrineTracker.save_subscribers`: newline-join of the decimal
renderings, in the set's iteration order `ord`. -/
def save_subscribers (ord : List ℤ) : String :=
  String.mk (joinChars (ord.map intChars))

/-- `ISSUrineTracker.onStatusChange`. -/
def onStatusChange (s : TrackerState) (status : String) : TrackerState :=
  if pyStartswith status "CONNECTED:" then { s with connected := true }
  else if status = "DISCONNECTED" then { s with connected := false }
  else s

/-- Inbound feed events: a `dict` snapshot (with an optional `Value` key)
or a regular item update with its three requested fields. -/
inductive UpdateEvent where
  | snapshot (value : Option String)
  | item (itemName : String) (value : Option String)
      (timeStamp : Option String) (statusClass : Option String)

/-- `ISSUrineTracker.onItemUpdate`; the `try/except` bodies that only log
make the function total. -/
def onItemUpdate (s : TrackerState) (u : UpdateEvent) : TrackerState :=
  match u with
  | UpdateEvent.snapshot none => s
  | UpdateEvent.snapshot (some raw) =>
    match parseFloat raw with
    | some x => { s with current_value := some x, last_urine_level := x }
    | none => s
  | UpdateEvent.item itemName value _ _ =>
    if itemName = "NODE3000005" then
      match value with
      | none => s
      | some raw =>
        match parseFloat raw with
        | some x => { s with current_value := some x }
        | none => s
    else s

/-- Outcome of one notification broadcast: the formatted message, the ids a
send was attempted for, and the ids whose send did not raise. -/
structure Broadcast where
  message : String
  attempted : List ℤ
  delivered : List ℤ

/-- The per-subscriber send loop: each send is tried; a failure (decided by
the oracle `fails`) is caught and the loop continues with the rest. -/
def sendAll (fails : ℤ → Bool) : List ℤ → List ℤ × List ℤ
  | [] => ([], [])
  | c :: rest =>
    let r := sendAll fails rest
    (c :: r.1, if fails c then r.2 else c :: r.2)

/-- The notification text built in `monitor_urine_level`. -/
def tickMessage (prev curr : ℚ) : String :=
  "🚽 ISS Urine Tank Update!\n" ++ "Previous level: " ++ fmtFixed1 prev ++ "%\n" ++
    "Current level: " ++ fmtFixed1 curr ++ "%\n" ++ "Change: " ++ fmtSigned1 (curr - prev) ++ "%"

/-- `ISSUrineTracker.monitor_urine_level`: one notifier tick. -/
def monitor_urine_level (fails : ℤ → Bool) (s : TrackerState) :
    TrackerState × Option Broadcast :=
  match s.current_value with
  | none => (s, none)
  | some v =>
    if MIN_CHANGE_THRESHOLD ≤ |v - s.last_urine_level| then
      let msg := tickMessage s.last_urine_level v
      let r := sendAll fails s.subscribers
      ({ s with last_urine_level := v }, some ⟨msg, r.1, r.2⟩)
    else (s, none)

/-- Outcome of `connect_lightstreamer`: subscribed from inside the wait
loop, fell through connected after the loop, or raised the timeout. -/
inductive ConnectResult where
  | subscribed
  | lateConnected
  | timeout

/-- The bounded connect wait: `flags i` is the value of `self.connected` at
the `i`-th check; the second component counts the one-second sleeps. -/
def connectLoop (flags : ℕ → Bool) : ℕ → ℕ → ConnectResult × ℕ
  | 0, i => (if flags i then ConnectResult.lateConnected else ConnectResult.timeout, i)
  | r + 1, i => if flags i then (ConnectResult.subscribed, i) else connectLoop flags r (i + 1)

/-- `ISSUrineTracker.connect_lightstreamer`: up to 30 in-loop checks, then
the post-loop check that may raise the timeout. -/
def connect_lightstreamer (flags : ℕ → Bool) : ConnectResult × ℕ :=
  connectLoop flags 30 0

/-- The `/start` handler: result state, whether the file was rewritten, and
the reply text. -/
def start (s : TrackerState) (chat_id : ℤ) : TrackerState × Bool × String :=
  if chat_id ∈ s.subscribers then (s, false, "You're already subscribed!")
  else
    ({ s with subscribers := s.subscribers ++ [chat_id] }, true,
      "Welcome to ISS Urine Tank Tracker! 🚀🚽\n" ++
        "You will receive notifications when the urine tank level changes.")

/-- The `/stop` handler: result state, whether the file was rewritten, and
the reply text. -/
def stop (s : TrackerState) (chat_id : ℤ) : TrackerState × Bool × String :=
  if chat_id ∈ s.subscribers then
    ({ s with subscribers := s.subscribers.erase chat_id }, true,
      "You've been unsubscribed from notifications.")
  else (s, false, "You weren't subscribed!")

/-- Events of the feed-and-notifier loop: inbound update frames, transport
status changes, and notifier ticks. -/
inductive Event where
  | feed (u : UpdateEvent)
  | statusChange (st : String)
  | tick (fails : ℤ → Bool)

/-- One step of the system; the boolean records whether the step broadcast
a notification to the subscriber list. -/
def step (s : TrackerState) : Event → TrackerState × Bool
  | Event.feed u => (onItemUpdate s u, false)
  | Event.statusChange st => (onStatusChange s st, false)
  | Event.tick fails =>
    let r := monitor_urine_level fails s
    (r.1, r.2.isSome)

/-- Decimal digit characters are produced for digit values. -/
lemma digitChar_isDigit {d : ℕ} (hd : d < 10) : (Nat.digitChar d).isDigit = true := by
  interval_cases d <;> rfl

/-- Reading back the character of a digit value yields the value. -/
lemma digitChar_toNat {d : ℕ} (hd : d < 10) : (Nat.digitChar d).toNat - 48 = d := by
  interval_cases d <;> rfl

/-- A digit character is not an underscore. -/
lemma isDigit_beq_underscore {c : Char} (h : c.isDigit = true) : (c == '_') = false := by
  cases hq : (c == '_')
  · rfl
  · exact absurd h (by rw [show c = '_' from beq_iff_eq.mp hq]; decide)

/-- A digit character is not a plus sign. -/
lemma isDigit_ne_plus {c : Char} (h : c.isDigit = true) : c ≠ '+' := by
  intro hc
  exact absurd h (by rw [hc]; decide)

/-- A digit character is not a minus sign. -/
lemma isDigit_ne_minus {c : Char} (h : c.isDigit = true) : c ≠ '-' := by
  intro hc
  exact absurd h (by rw [hc]; decide)

/-- A digit character is not a newline. -/
lemma isDigit_ne_newline {c : Char} (h : c.isDigit = true) : c ≠ '\n' := by
  intro hc
  exact absurd h (by rw [hc]; decide)

/-- A digit character is not an underscore, as a disequality. -/
lemma isDigit_ne_underscore {c : Char} (h : c.isDigit = true) : c ≠ '_' := by
  intro hc
  exact absurd h (by rw [hc]; decide)

/-- A digit character is not whitespace. -/
lemma isDigit_not_ws {c : Char} (h : c.isDigit = true) : c.isWhitespace = false := by
  by_contra hw
  rw [Bool.not_eq_false] at hw
  have hd : ((c = ' ' ∨ c = '\t') ∨ c = '\x0d') ∨ c = '\n' := by
    simpa [Char.isWhitespace] using hw
  rcases hd with ((h1 | h1) | h1) | h1 <;> rw [h1] at h <;> exact absurd h (by decide)

/-- Folding one more digit character onto the big-endian value. -/
lemma digitsVal_append_one (xs : List Char) (c : Char) :
    digitsVal (xs ++ [c]) = digitsVal xs * 10 + (c.toNat - 48) := by
  simp [digitsVal, List.foldl_append]

/-- The digit renderer returns nothing for zero. -/
lemma natCharsAux_zero (fuel : ℕ) : natCharsAux fuel 0 = [] := by
  cases fuel <;> rfl

/-- The fueled digit renderer is correct for positive inputs. -/
lemma natCharsAux_spec :
    ∀ fuel n, 0 < n → n ≤ fuel →
      digitsVal (natCharsAux fuel n) = n ∧ natCharsAux fuel n ≠ [] ∧
        ∀ c ∈ natCharsAux fuel n, c.isDigit = true := by
  intro fuel
  induction fuel with
  | zero => intro n h1 h2; omega
  | succ f ih =>
    intro n h1 h2
    obtain ⟨m, rfl⟩ : ∃ m, n = m + 1 := ⟨n - 1, by omega⟩
    rw [show natCharsAux (f + 1) (m + 1) =
        natCharsAux f ((m + 1) / 10) ++ [Nat.digitChar ((m + 1) % 10)] from rfl]
    have hmod : (m + 1) % 10 < 10 := Nat.mod_lt _ (by omega)
    by_cases hq : (m + 1) / 10 = 0
    · have hlt : m + 1 < 10 := by omega
      rw [hq, natCharsAux_zero]
      refine ⟨?_, by simp, ?_⟩
      · simp [digitsVal, digitChar_toNat hmod]
        omega
      · intro c hc
        simp at hc
        rw [hc]
        exact digitChar_isDigit hmod
    · have hdiv : (m + 1) / 10 ≤ f := by
        have := Nat.div_lt_self (show 0 < m + 1 by omega) (show 1 < 10 by omega)
        omega
      obtain ⟨hv, hne, hdig⟩ := ih ((m + 1) / 10) (by omega) hdiv
      refine ⟨?_, by simp [hne], ?_⟩
      · rw [digitsVal_append_one, hv, digitChar_toNat hmod]
        omega
      · intro c hc
        rcases List.mem_append.mp hc with hc | hc
        · exact hdig c hc
        · simp at hc
          rw [hc]
          exact digitChar_isDigit hmod

/-- The decimal rendering of a natural number has the right value, is
nonempty, and consists of digit characters. -/
lemma natChars_spec (n : ℕ) :
    digitsVal (natChars n) = n ∧ natChars n ≠ [] ∧
      ∀ c ∈ natChars n, c.isDigit = true := by
  unfold natChars
  by_cases h : n = 0
  · subst h
    exact ⟨rfl, by simp, by intro c hc; simp at hc; rw [hc]; rfl⟩
  · rw [if_neg h]
    exact natCharsAux_spec n n (by omega) le_rfl

/-- Digit-only lists never contain two adjacent underscores. -/
lemma noDoubleUnderscore_of_digits :
    ∀ cs : List Char, (∀ c ∈ cs, c.isDigit = true) → noDoubleUnderscore cs = true := by
  intro cs
  induction cs with
  | nil => intro _; rfl
  | cons c rest ih =>
    intro h
    cases rest with
    | nil => rfl
    | cons c2 r2 =>
      have h1 : (c == '_') = false := isDigit_beq_underscore (h c (by simp))
      have h2 := ih (fun x hx => h x (by simp [hx]))
      simp [noDoubleUnderscore, h1, h2]

/-- Digit-only nonempty lists satisfy Python's digit-group rule. -/
lemma groupOk_of_digits (cs : List Char) (hne : cs ≠ [])
    (hd : ∀ c ∈ cs, c.isDigit = true) : groupOk cs = true := by
  unfold groupOk
  obtain ⟨c, rest, rfl⟩ := List.exists_cons_of_ne_nil hne
  have hhead : ((c :: rest).head? != some '_') = true := by
    simp [isDigit_ne_underscore (hd c (by simp))]
  have hlastmem : (c :: rest).getLast (by simp) ∈ c :: rest := List.getLast_mem _
  have hlast : ((c :: rest).getLast? != some '_') = true := by
    rw [List.getLast?_eq_getLast _ (by simp)]
    simp [isDigit_ne_underscore (hd _ hlastmem)]
  have hall : (c :: rest).all (fun x => x.isDigit || x == '_') = true := by
    rw [List.all_eq_true]
    intro x hx
    simp [hd x hx]
  simp [hhead, hlast, noDoubleUnderscore_of_digits _ hd, hall,
    isDigit_ne_underscore (hd c (by simp))]

/-- Filtering underscores out of a digit-only list changes nothing. -/
lemma filter_underscore_of_digits (cs : List Char)
    (hd : ∀ c ∈ cs, c.isDigit = true) :
    cs.filter (fun c => !(c == '_')) = cs := by
  apply List.filter_eq_self.mpr
  intro c hc
  simp [isDigit_beq_underscore (hd c hc)]

/-- Parsing the decimal rendering of a natural number recovers it. -/
lemma digitGroup_natChars (n : ℕ) : digitGroup (natChars n) = some n := by
  obtain ⟨hv, hne, hdig⟩ := natChars_spec n
  unfold digitGroup
  rw [if_pos (groupOk_of_digits _ hne hdig), filter_underscore_of_digits _ hdig, hv]

/-- Dropping a prefix by a predicate nothing satisfies changes nothing. -/
lemma dropWhile_eq_self_of_none (p : Char → Bool) (l : List Char)
    (h : ∀ c ∈ l, p c = false) : l.dropWhile p = l := by
  cases l with
  | nil => rfl
  | cons c rest => simp [List.dropWhile, h c (by simp)]

/-- Stripping whitespace from whitespace-free content changes nothing. -/
lemma stripWs_eq_self (cs : List Char)
    (h : ∀ c ∈ cs, c.isWhitespace = false) : stripWs cs = cs := by
  unfold stripWs
  rw [dropWhile_eq_self_of_none _ _ h,
    dropWhile_eq_self_of_none _ _ (fun c hc => h c (List.mem_reverse.mp hc)),
    List.reverse_reverse]

/-- Unfolding the sign analysis of `signedGroup` on a nonempty list. -/
lemma signedGroup_cons (c : Char) (rest : List Char) :
    signedGroup (c :: rest) =
      if c = '+' then (digitGroup rest).map (fun n => Int.ofNat n)
      else if c = '-' then (digitGroup rest).map (fun n => -Int.ofNat n)
      else (digitGroup (c :: rest)).map (fun n => Int.ofNat n) := rfl

/-- Parsing the decimal rendering of an integer recovers it. -/
lemma parseIntChars_intChars (z : ℤ) : parseIntChars (intChars z) = some z := by
  obtain ⟨hv, hne, hdig⟩ := natChars_spec z.natAbs
  unfold parseIntChars intChars
  by_cases hz : z < 0
  · rw [if_pos hz]
    have hws : ∀ c ∈ '-' :: natChars z.natAbs, c.isWhitespace = false := by
      intro c hc
      rcases List.mem_cons.mp hc with hc | hc
      · rw [hc]; rfl
      · exact isDigit_not_ws (hdig c hc)
    rw [stripWs_eq_self _ hws]
    rw [signedGroup_cons, if_neg (show ('-' : Char) ≠ '+' by decide), if_pos rfl]
    rw [digitGroup_natChars]
    simp only [Option.map_some']
    congr 1
    rw [show Int.ofNat z.natAbs = ((z.natAbs : ℕ) : ℤ) from rfl,
      Int.ofNat_natAbs_of_nonpos (le_of_lt hz)]
    ring
  · rw [if_neg hz]
    have hws : ∀ c ∈ natChars z.natAbs, c.isWhitespace = false :=
      fun c hc => isDigit_not_ws (hdig c hc)
    rw [stripWs_eq_self _ hws]
    obtain ⟨c, rest, hc⟩ := List.exists_cons_of_ne_nil hne
    have hcd : c.isDigit = true := hdig c (by rw [hc]; simp)
    rw [hc]
    rw [signedGroup_cons, if_neg (isDigit_ne_plus hcd), if_neg (isDigit_ne_minus hcd)]
    rw [← hc, digitGroup_natChars]
    simp only [Option.map_some']
    congr 1
    rw [show Int.ofNat z.natAbs = ((z.natAbs : ℕ) : ℤ) from rfl]
    exact Int.natAbs_of_nonneg (by omega)

/-- Parsing the decimal string of an integer recovers it. -/
lemma parseInt_intStr (z : ℤ) : parseInt (intStr z) = some z := by
  show parseIntChars (intChars z) = some z
  exact parseIntChars_intChars z

/-- The decimal rendering of an integer is nonempty. -/
lemma intChars_ne_nil (z : ℤ) : intChars z ≠ [] := by
  obtain ⟨_, hne, _⟩ := natChars_spec z.natAbs
  unfold intChars
  split
  · simp
  · exact hne

/-- The decimal rendering of an integer contains no newline. -/
lemma intChars_no_newline (z : ℤ) : ∀ c ∈ intChars z, c ≠ '\n' := by
  obtain ⟨_, _, hdig⟩ := natChars_spec z.natAbs
  intro c hc
  unfold intChars at hc
  split at hc
  · rcases List.mem_cons.mp hc with hc | hc
    · rw [hc]; decide
    · exact isDigit_ne_newline (hdig c hc)
  · exact isDigit_ne_newline (hdig c hc)

/-- A nonempty list is not `isEmpty`. -/
lemma isEmpty_eq_false_of_ne_nil {α : Type} {l : List α} (h : l ≠ []) :
    l.isEmpty = false := by
  obtain ⟨c, t, rfl⟩ := List.exists_cons_of_ne_nil h
  rfl

/-- Processing a newline-free chunk only accumulates it. -/
lemma splitlinesAux_append (l : List Char) (h : ∀ c ∈ l, c ≠ '\n') :
    ∀ rest acc, splitlinesAux (l ++ rest) acc = splitlinesAux rest (l.reverse ++ acc) := by
  induction l with
  | nil => intro rest acc; simp
  | cons c l' ih =>
    intro rest acc
    have hc : c ≠ '\n' := h c (by simp)
    rw [List.cons_append,
      show splitlinesAux (c :: (l' ++ rest)) acc = splitlinesAux (l' ++ rest) (c :: acc) from by
        simp [splitlinesAux, hc],
      ih (fun x hx => h x (by simp [hx])) rest (c :: acc)]
    simp

/-- A join headed by a nonempty line is nonempty. -/
lemma joinChars_ne_nil (l : List Char) (ls : List (List Char)) (h : l ≠ []) :
    joinChars (l :: ls) ≠ [] := by
  cases ls with
  | nil => simpa [joinChars] using h
  | cons l2 ls2 =>
    rw [show joinChars (l :: l2 :: ls2) = l ++ '\n' :: joinChars (l2 :: ls2) from rfl]
    simp

/-- Splitting a newline-join of nonempty newline-free lines recovers the
lines. -/
lemma splitlinesAux_joinChars :
    ∀ lines : List (List Char), lines ≠ [] →
      (∀ l ∈ lines, l ≠ [] ∧ ∀ c ∈ l, c ≠ '\n') →
      splitlinesAux (joinChars lines) [] = lines := by
  intro lines
  induction lines with
  | nil => intro h; exact absurd rfl h
  | cons l ls ih =>
    intro _ hcond
    obtain ⟨hlne, hlnl⟩ := hcond l (by simp)
    cases ls with
    | nil =>
      rw [show joinChars [l] = l from rfl, ← List.append_nil l,
        splitlinesAux_append l hlnl [] []]
      simp [splitlinesAux]
    | cons l2 ls2 =>
      obtain ⟨hl2ne, _⟩ := hcond l2 (by simp)
      rw [show joinChars (l :: l2 :: ls2) = l ++ '\n' :: joinChars (l2 :: ls2) from rfl,
        splitlinesAux_append l hlnl _ []]
      rw [show splitlinesAux ('\n' :: joinChars (l2 :: ls2)) (l.reverse ++ []) =
          (l.reverse ++ []).reverse ::
            (if (joinChars (l2 :: ls2)).isEmpty then []
             else splitlinesAux (joinChars (l2 :: ls2)) []) from by
        simp [splitlinesAux]]
      have hje : (joinChars (l2 :: ls2)).isEmpty = false :=
        isEmpty_eq_false_of_ne_nil (joinChars_ne_nil l2 ls2 hl2ne)
      rw [hje]
      simp only [Bool.false_eq_true, if_false, List.append_nil, List.reverse_reverse]
      rw [ih (by simp) (fun x hx => hcond x (by simp [hx]))]

/-- Splitting a newline-join of nonempty newline-free lines recovers the
lines, including the empty list of lines. -/
lemma splitLinesChars_joinChars (lines : List (List Char))
    (hcond : ∀ l ∈ lines, l ≠ [] ∧ ∀ c ∈ l, c ≠ '\n') :
    splitLinesChars (joinChars lines) = lines := by
  cases lines with
  | nil => rfl
  | cons l ls =>
    unfold splitLinesChars
    have hne : (joinChars (l :: ls)).isEmpty = false :=
      isEmpty_eq_false_of_ne_nil (joinChars_ne_nil l ls (hcond l (by simp)).1)
    rw [hne]
    simp only [Bool.false_eq_true, if_false]
    exact splitlinesAux_joinChars (l :: ls) (by simp) hcond

/-- The lines of a saved subscriber file are the decimal renderings, in
iteration order. -/
lemma pySplitlines_save (ord : List ℤ) :
    pySplitlines (save_subscribers ord) = ord.map intStr := by
  unfold pySplitlines save_subscribers
  rw [show (String.mk (joinChars (ord.map intChars))).data =
      joinChars (ord.map intChars) from rfl]
  rw [splitLinesChars_joinChars (ord.map intChars) (by
    intro l hl
    obtain ⟨z, _, rfl⟩ := List.mem_map.mp hl
    exact ⟨intChars_ne_nil z, intChars_no_newline z⟩)]
  rw [List.map_map]
  rfl

/-- Parsing every rendered integer line succeeds with the original list. -/
lemma mapParse_map_intStr (l : List ℤ) : mapParse (l.map intStr) = some l := by
  induction l with
  | nil => rfl
  | cons z zs ih => simp [mapParse, parseInt_intStr, ih]

/-- One unparseable line makes the whole parse fail. -/
lemma mapParse_eq_none (lines : List String) (line : String)
    (h1 : line ∈ lines) (h2 : parseInt line = none) : mapParse lines = none := by
  induction lines with
  | nil => simp at h1
  | cons hd tl ih =>
    rcases List.mem_cons.mp h1 with rfl | hmem
    · simp [mapParse, h2]
    · rw [show mapParse (hd :: tl) =
          (match parseInt hd, mapParse tl with
           | some v, some vs => some (v :: vs)
           | _, _ => none) from rfl, ih hmem]
      cases parseInt hd <;> rfl

/-- A successfully parsed file of canonical integer lines is exactly the
rendering of its parsed values. -/
lemma mapParse_canonical :
    ∀ lines : List String, ∀ vals : List ℤ, mapParse lines = some vals →
      (∀ line ∈ lines, ∃ z, line = intStr z) → lines = vals.map intStr := by
  intro lines
  induction lines with
  | nil =>
    intro vals h _
    rw [show mapParse [] = some [] from rfl] at h
    cases h
    rfl
  | cons hd tl ih =>
    intro vals h hc
    obtain ⟨z, hz⟩ := hc hd (by simp)
    have hphd : parseInt hd = some z := by rw [hz]; exact parseInt_intStr z
    rw [show mapParse (hd :: tl) =
        (match parseInt hd, mapParse tl with
         | some v, some vs => some (v :: vs)
         | _, _ => none) from rfl, hphd] at h
    cases htl : mapParse tl with
    | none => rw [htl] at h; cases h
    | some vs =>
      rw [htl] at h
      cases h
      rw [ih vs htl (fun x hx => hc x (by simp [hx])), List.map_cons, ← hz]

/-- The send loop attempts delivery to every id, whatever fails. -/
lemma sendAll_fst (fails : ℤ → Bool) : ∀ l : List ℤ, (sendAll fails l).1 = l := by
  intro l
  induction l with
  | nil => rfl
  | cons c rest ih => simp [sendAll, ih]

/-- The send loop delivers exactly to the ids whose send does not fail. -/
lemma sendAll_snd (fails : ℤ → Bool) :
    ∀ l : List ℤ, (sendAll fails l).2 = l.filter (fun c => !(fails c)) := by
  intro l
  induction l with
  | nil => rfl
  | cons c rest ih =>
    rw [show (sendAll fails (c :: rest)).2 =
        (if fails c then (sendAll fails rest).2 else c :: (sendAll fails rest).2) from rfl]
    rw [List.filter_cons]
    cases hf : fails c <;> simp [hf, ih]

/-- If the flag stays down through every check, the wait loop times out
after sleeping once per loop iteration. -/
lemma connectLoop_timeout (flags : ℕ → Bool) :
    ∀ r i, (∀ k, k ≤ r → flags (i + k) = false) →
      connectLoop flags r i = (ConnectResult.timeout, i + r) := by
  intro r
  induction r with
  | zero =>
    intro i h
    have h0 : flags i = false := by simpa using h 0 (by omega)
    simp [connectLoop, h0]
  | succ r ih =>
    intro i h
    have h0 : flags i = false := by simpa using h 0 (by omega)
    rw [show connectLoop flags (r + 1) i =
        (if flags i then (ConnectResult.subscribed, i) else connectLoop flags r (i + 1)) from
        rfl, h0]
    simp only [Bool.false_eq_true, if_false]
    rw [ih (i + 1) (fun k hk => by
      have := h (k + 1) (by omega)
      simpa [Nat.add_assoc, Nat.add_comm 1 k] using this)]
    congr 1
    omega

/-- The wait loop returns at the first check where the flag is up, having
slept once per earlier iteration. -/
lemma connectLoop_found (flags : ℕ → Bool) :
    ∀ r i j, j < r → flags (i + j) = true → (∀ k, k < j → flags (i + k) = false) →
      connectLoop flags r i = (ConnectResult.subscribed, i + j) := by
  intro r
  induction r with
  | zero => intro i j hj; omega
  | succ r ih =>
    intro i j hj hfl hbefore
    cases j with
    | zero =>
      have h0 : flags i = true := by simpa using hfl
      rw [show connectLoop flags (r + 1) i =
          (if flags i then (ConnectResult.subscribed, i) else connectLoop flags r (i + 1)) from
          rfl, h0]
      simp
    | succ j =>
      have h0 : flags i = false := by simpa using hbefore 0 (by omega)
      rw [show connectLoop flags (r + 1) i =
          (if flags i then (ConnectResult.subscribed, i) else connectLoop flags r (i + 1)) from
          rfl, h0]
      simp only [Bool.false_eq_true, if_false]
      rw [ih (i + 1) j (by omega) (by
        have := hfl
        simpa [Nat.add_assoc, Nat.add_comm 1 j] using this)
        (fun k hk => by
          have := hbefore (k + 1) (by omega)
          simpa [Nat.add_assoc, Nat.add_comm 1 k] using this)]
      congr 1
      omega

/-- The wait loop sleeps at most once per iteration budget. -/
lemma connectLoop_sleeps (flags : ℕ → Bool) :
    ∀ r i, (connectLoop flags r i).2 ≤ i + r := by
  intro r
  induction r with
  | zero =>
    intro i
    rw [show connectLoop flags 0 i =
        (if flags i then ConnectResult.lateConnected else ConnectResult.timeout, i) from rfl]
    omega
  | succ r ih =>
    intro i
    rw [show connectLoop flags (r + 1) i =
        (if flags i then (ConnectResult.subscribed, i) else connectLoop flags r (i + 1)) from
        rfl]
    cases flags i
    · simp only [Bool.false_eq_true, if_false]
      have := ih (i + 1)
      omega
    · simp only [if_true]
      omega

/-- The snapshot value "42.0" parses to forty-two. -/
lemma parseFloat_fortytwo : parseFloat "42.0" = some 42 := by
  rw [show parseFloat "42.0" = some ((42 : ℕ) + ((0 : ℕ) : ℚ) / 10 ^ (1 : ℕ)) from rfl]
  norm_num

/-- The rendered signed delta for a one-half increase. -/
lemma fmtSigned1_half : fmtSigned1 (405 / 10 - 40) = "+0.5" := by
  rw [show (405 / 10 - 40 : ℚ) = 1 / 2 by norm_num]
  unfold fmtSigned1
  rw [show ((1 : ℚ) / 2 * 10) = 5 by norm_num]
  rw [show roundHalfEven 5 = 5 from by unfold roundHalfEven; norm_num]
  norm_num
  decide

/-- A two-fifths change stays below the notification threshold. -/
lemma thr_below : ¬ MIN_CHANGE_THRESHOLD ≤ |(404 / 10 : ℚ) - 40| := by
  rw [show ((404 : ℚ) / 10 - 40) = 2 / 5 by norm_num,
    abs_of_nonneg (show (0 : ℚ) ≤ 2 / 5 by norm_num)]
  unfold MIN_CHANGE_THRESHOLD
  norm_num

/-- A one-half change meets the notification threshold. -/
lemma thr_met : MIN_CHANGE_THRESHOLD ≤ |(405 / 10 : ℚ) - 40| := by
  rw [show ((405 : ℚ) / 10 - 40) = 1 / 2 by norm_num,
    abs_of_nonneg (show (0 : ℚ) ≤ 1 / 2 by norm_num)]
  unfold MIN_CHANGE_THRESHOLD
  norm_num

/-- Unfolding `onItemUpdate` on a snapshot frame carrying a value. -/
lemma onItemUpdate_snapshot_some (s : TrackerState) (raw : String) :
    onItemUpdate s (UpdateEvent.snapshot (some raw)) =
      (match parseFloat raw with
       | some x => { s with current_value := some x, last_urine_level := x }
       | none => s) := rfl

/-- Unfolding `onItemUpdate` on a regular item update. -/
lemma onItemUpdate_item (s : TrackerState) (n : String) (v ts st : Option String) :
    onItemUpdate s (UpdateEvent.item n v ts st) =
      (if n = "NODE3000005" then
        match v with
        | none => s
        | some raw =>
          match parseFloat raw with
          | some x => { s with current_value := some x }
          | none => s
      else s) := rfl

/-- Unfolding one tick of `monitor_urine_level` when a value is present. -/
lemma monitor_some (fails : ℤ → Bool) (s : TrackerState) (v : ℚ)
    (hv : s.current_value = some v) :
    monitor_urine_level fails s =
      (if MIN_CHANGE_THRESHOLD ≤ |v - s.last_urine_level| then
        ({ s with last_urine_level := v },
          some ⟨tickMessage s.last_urine_level v,
            (sendAll fails s.subscribers).1, (sendAll fails s.subscribers).2⟩)
      else (s, none)) := by
  unfold monitor_urine_level
  rw [hv]

/-- A tick with no tracked value is a silent no-op. -/
lemma monitor_none (fails : ℤ → Bool) (s : TrackerState)
    (hv : s.current_value = none) : monitor_urine_level fails s = (s, none) := by
  unfold monitor_urine_level
  rw [hv]

/-- Unfolding `step` on a feed event. -/
lemma step_feed (s : TrackerState) (u : UpdateEvent) :
    step s (Event.feed u) = (onItemUpdate s u, false) := rfl

/-- Unfolding `step` on a status-change event. -/
lemma step_status (s : TrackerState) (st : String) :
    step s (Event.statusChange st) = (onStatusChange s st, false) := rfl

/-- Unfolding `step` on a notifier tick. -/
lemma step_tick (s : TrackerState) (fails : ℤ → Bool) :
    step s (Event.tick fails) =
      ((monitor_urine_level fails s).1, (monitor_urine_level fails s).2.isSome) := rfl

/-- C5: `load_subscribers` returns the empty set when the backing file is
missing, and when the file has any line that `int` cannot parse the
`ValueError` propagates to the caller (the whole load fails, with no
partial recovery). -/
theorem claim_C5 (content line : String)
    (h1 : line ∈ pySplitlines content) (h2 : parseInt line = none) :
    load_subscribers none = Except.ok [] ∧
    load_subscribers (some content) = Except.error () := by
  refine ⟨rfl, ?_⟩
  show (match mapParse (pySplitlines content) with
    | none => Except.error ()
    | some vals => Except.ok vals.dedup) = Except.error ()
  rw [mapParse_eq_none _ _ h1 h2]

/-- Witness for C5 at the concrete malformed file "12\nxy". -/
theorem claim_C5_witness :
    ("xy" ∈ pySplitlines "12\nxy") ∧ parseInt "xy" = none ∧
    load_subscribers none = Except.ok [] ∧
    load_subscribers (some "12\nxy") = Except.error () :=
  ⟨by decide, by decide,
    (claim_C5 "12\nxy" "xy" (by decide) (by decide)).1,
    (claim_C5 "12\nxy" "xy" (by decide) (by decide)).2⟩

/-- C6: an inbound frame whose numeric field fails to parse as a float is
dropped without raising and leaves the whole tracker state (in particular
the Tracked Value) unchanged, on both the snapshot path and the item-update
path. -/
theorem claim_C6 (s : TrackerState) (raw n : String) (ts st : Option String)
    (hp : parseFloat raw = none) :
    onItemUpdate s (UpdateEvent.snapshot (some raw)) = s ∧
    onItemUpdate s (UpdateEvent.item n (some raw) ts st) = s := by
  constructor
  · rw [onItemUpdate_snapshot_some, hp]
  · rw [onItemUpdate_item]
    by_cases hn : n = "NODE3000005"
    · rw [if_pos hn]
      show (match parseFloat raw with
        | some x => { s with current_value := some x }
        | none => s) = s
      rw [hp]
    · rw [if_neg hn]

/-- Witness for C6 at the unparseable field "abc". -/
theorem claim_C6_witness :
    parseFloat "abc" = none ∧
    onItemUpdate ⟨[], 3, some 7, true⟩ (UpdateEvent.snapshot (some "abc")) =
      ⟨[], 3, some 7, true⟩ ∧
    onItemUpdate ⟨[], 3, some 7, true⟩
      (UpdateEvent.item "NODE3000005" (some "abc") none none) = ⟨[], 3, some 7, true⟩ :=
  ⟨by decide,
    (claim_C6 ⟨[], 3, some 7, true⟩ "abc" "NODE3000005" none none (by decide)).1,
    (claim_C6 ⟨[], 3, some 7, true⟩ "abc" "NODE3000005" none none (by decide)).2⟩

/-- C7 counterexample: the code matches the exact uppercase prefix
"CONNECTED:", so a status that is "connected"-prefixed as the claim words
it (here "connected:ws") does not set the flag: the state is unchanged and
the flag stays disconnected. -/
theorem claim_C7_counterexample :
    pyStartswith "connected:ws" "connected" = true ∧
    onStatusChange ⟨[], 0, none, false⟩ "connected:ws" = ⟨[], 0, none, false⟩ := by
  constructor
  · decide
  · rfl

/-- C7 (amended): a status with the exact prefix "CONNECTED:" sets the
Connection Status flag to connected, the exact status "DISCONNECTED" sets
it to disconnected, and any other status leaves the state unchanged. -/
theorem claim_C7_amended (s : TrackerState) (status : String) :
    (pyStartswith status "CONNECTED:" = true → (onStatusChange s status).connected = true) ∧
    (status = "DISCONNECTED" → (onStatusChange s status).connected = false) ∧
    (pyStartswith status "CONNECTED:" = false → status ≠ "DISCONNECTED" →
      onStatusChange s status = s) := by
  refine ⟨?_, ?_, ?_⟩
  · intro h
    unfold onStatusChange
    rw [if_pos h]
  · intro h
    subst h
    unfold onStatusChange
    rw [if_neg (show ¬ pyStartswith "DISCONNECTED" "CONNECTED:" = true by decide), if_pos rfl]
  · intro h1 h2
    unfold onStatusChange
    rw [if_neg (by simp [h1]), if_neg h2]

/-- Witness for C7 at the three kinds of status strings. -/
theorem claim_C7_witness :
    pyStartswith "CONNECTED:WS-STREAMING" "CONNECTED:" = true ∧
    (onStatusChange ⟨[], 0, none, false⟩ "CONNECTED:WS-STREAMING").connected = true ∧
    (onStatusChange ⟨[], 0, none, true⟩ "DISCONNECTED").connected = false ∧
    onStatusChange ⟨[], 0, none, true⟩ "STALLED" = ⟨[], 0, none, true⟩ :=
  ⟨by decide,
    (claim_C7_amended ⟨[], 0, none, false⟩ "CONNECTED:WS-STREAMING").1 (by decide),
    (claim_C7_amended ⟨[], 0, none, true⟩ "DISCONNECTED").2.1 rfl,
    (claim_C7_amended ⟨[], 0, none, true⟩ "STALLED").2.2 (by decide) (by decide)⟩

/-- C9: subscribing an already-subscribed chat id leaves the subscriber set
unchanged, does not rewrite the persisted file, and replies with the
"already subscribed" message; unsubscribing an absent id leaves the set
unchanged, does not rewrite the file, and replies with the "weren't
subscribed" message. -/
theorem claim_C9 (s : TrackerState) (c : ℤ) :
    (c ∈ s.subscribers → start s c = (s, false, "You're already subscribed!")) ∧
    (c ∉ s.subscribers → stop s c = (s, false, "You weren't subscribed!")) := by
  constructor
  · intro h
    unfold start
    rw [if_pos h]
  · intro h
    unfold stop
    rw [if_neg h]

/-- Witness for C9 on the subscriber set containing exactly 4. -/
theorem claim_C9_witness :
    ((4 : ℤ) ∈ [(4 : ℤ)]) ∧ ((9 : ℤ) ∉ [(4 : ℤ)]) ∧
    start ⟨[4], 0, none, false⟩ 4 =
      (⟨[4], 0, none, false⟩, false, "You're already subscribed!") ∧
    stop ⟨[4], 0, none, false⟩ 9 =
      (⟨[4], 0, none, false⟩, false, "You weren't subscribed!") :=
  ⟨by decide, by decide,
    (claim_C9 ⟨[4], 0, none, false⟩ 4).1 (by decide),
    (claim_C9 ⟨[4], 0, none, false⟩ 9).2 (by decide)⟩

/-- C10: a non-snapshot update whose item name is not "NODE3000005", and a
non-snapshot update whose Value field is None, leave the whole tracker
state (Tracked Value, Last-Broadcast Value, Connection Status and the
subscriber set) unchanged. -/
theorem claim_C10 (s : TrackerState) (n : String) (v ts st : Option String) :
    (n ≠ "NODE3000005" → onItemUpdate s (UpdateEvent.item n v ts st) = s) ∧
    onItemUpdate s (UpdateEvent.item n none ts st) = s := by
  constructor
  · intro h
    rw [onItemUpdate_item, if_neg h]
  · rw [onItemUpdate_item]
    by_cases hn : n = "NODE3000005"
    · rw [if_pos hn]
    · rw [if_neg hn]

/-- Witness for C10 at a foreign item name and at a None value. -/
theorem claim_C10_witness :
    ("OTHER" ≠ "NODE3000005") ∧
    onItemUpdate ⟨[1], 2, some 3, true⟩ (UpdateEvent.item "OTHER" (some "41.0") none none) =
      ⟨[1], 2, some 3, true⟩ ∧
    onItemUpdate ⟨[1], 2, some 3, true⟩ (UpdateEvent.item "NODE3000005" none none none) =
      ⟨[1], 2, some 3, true⟩ :=
  ⟨by decide,
    (claim_C10 ⟨[1], 2, some 3, true⟩ "OTHER" (some "41.0") none none).1 (by decide),
    (claim_C10 ⟨[1], 2, some 3, true⟩ "NODE3000005" (some "41.0") none none).2⟩

/-- C8: the connect wait terminates on every execution: if the connection
flag is up at the j-th in-loop check (and down before), the call returns
successfully after j sleeps; if the flag is never up through all 30 in-loop
checks and the post-loop check, the call performs exactly 30 one-second
poll iterations and raises the connection timeout; the loop never sleeps
more than 30 times. -/
theorem claim_C8 (flags : ℕ → Bool) (j : ℕ) :
    ((∀ i, i ≤ 30 → flags i = false) →
      connect_lightstreamer flags = (ConnectResult.timeout, 30)) ∧
    (j < 30 → flags j = true → (∀ i, i < j → flags i = false) →
      connect_lightstreamer flags = (ConnectResult.subscribed, j)) ∧
    (connect_lightstreamer flags).2 ≤ 30 := by
  refine ⟨?_, ?_, ?_⟩
  · intro h
    unfold connect_lightstreamer
    rw [connectLoop_timeout flags 30 0 (fun k hk => by simpa using h k hk)]
  · intro h1 h2 h3
    unfold connect_lightstreamer
    rw [connectLoop_found flags 30 0 j h1 (by simpa using h2) (fun k hk => by
      simpa using h3 k hk)]
    simp
  · unfold connect_lightstreamer
    simpa using connectLoop_sleeps flags 30 0

/-- Witness for C8: a flag that never comes up times out after 30 sleeps; a
flag first up at check 2 subscribes after 2 sleeps. -/
theorem claim_C8_witness :
    connect_lightstreamer (fun _ => false) = (ConnectResult.timeout, 30) ∧
    connect_lightstreamer (fun i => decide (2 ≤ i)) = (ConnectResult.subscribed, 2) ∧
    (connect_lightstreamer (fun _ => false)).2 ≤ 30 :=
  ⟨(claim_C8 (fun _ => false) 0).1 (fun _ _ => rfl),
    (claim_C8 (fun i => decide (2 ≤ i)) 2).2.1 (by decide) (by decide)
      (fun i hi => by
        interval_cases i <;> decide),
    (claim_C8 (fun _ => false) 0).2.2⟩

/-- C2: with a present Tracked Value, a tick notifies exactly when the
absolute difference from the Last-Broadcast Value meets the threshold; in
particular with last_broadcast 40.0 and threshold 0.5, a Tracked Value of
40.4 sends nothing and leaves the state untouched, while 40.5 broadcasts
the update message once per subscriber with rendered delta "+0.5". -/
theorem claim_C2 (fails : ℤ → Bool) (s : TrackerState) (v : ℚ) (c : ℤ)
    (hv : s.current_value = some v) (hnd : s.subscribers.Nodup) :
    ((monitor_urine_level fails s).2.isSome ↔
      MIN_CHANGE_THRESHOLD ≤ |v - s.last_urine_level|) ∧
    (s.last_urine_level = 40 → v = 404 / 10 → monitor_urine_level fails s = (s, none)) ∧
    (s.last_urine_level = 40 → v = 405 / 10 →
      (monitor_urine_level fails s).2.map Broadcast.attempted = some s.subscribers ∧
      (c ∈ s.subscribers →
        (monitor_urine_level fails s).2.map (fun b => b.attempted.count c) = some 1) ∧
      (monitor_urine_level fails s).2.map Broadcast.message =
        some (tickMessage 40 (405 / 10)) ∧
      fmtSigned1 (405 / 10 - 40) = "+0.5") := by
  refine ⟨?_, ?_, ?_⟩
  · rw [monitor_some fails s v hv]
    by_cases h : MIN_CHANGE_THRESHOLD ≤ |v - s.last_urine_level|
    · rw [if_pos h]
      simpa using h
    · rw [if_neg h]
      simpa using h
  · intro hl hv4
    subst hv4
    rw [monitor_some fails s _ hv, hl, if_neg thr_below]
  · intro hl hv4
    subst hv4
    rw [monitor_some fails s _ hv, hl, if_pos thr_met]
    refine ⟨by simp [sendAll_fst], ?_, by simp, fmtSigned1_half⟩
    intro hc
    simp only [Option.map_some', sendAll_fst]
    rw [List.count_eq_one_of_mem hnd hc]

/-- Witness for C2 at last-broadcast 40.0 with tracked values 40.4 and
40.5 over the subscriber list [7, 9]. -/
theorem claim_C2_witness :
    (⟨[7, 9], 40, some (405 / 10), false⟩ : TrackerState).current_value =
      some (405 / 10) ∧
    [(7 : ℤ), 9].Nodup ∧
    monitor_urine_level (fun _ => false) ⟨[7, 9], 40, some (404 / 10), false⟩ =
      (⟨[7, 9], 40, some (404 / 10), false⟩, none) ∧
    (monitor_urine_level (fun _ => false) ⟨[7, 9], 40, some (405 / 10), false⟩).2.map
      Broadcast.attempted = some [7, 9] ∧
    (monitor_urine_level (fun _ => false) ⟨[7, 9], 40, some (405 / 10), false⟩).2.map
      (fun b => b.attempted.count 7) = some 1 ∧
    (monitor_urine_level (fun _ => false) ⟨[7, 9], 40, some (405 / 10), false⟩).2.map
      Broadcast.message = some (tickMessage 40 (405 / 10)) ∧
    fmtSigned1 (405 / 10 - 40) = "+0.5" := by
  refine ⟨rfl, by decide, ?_, ?_, ?_, ?_, ?_⟩
  · exact (claim_C2 (fun _ => false) ⟨[7, 9], 40, some (404 / 10), false⟩ (404 / 10) 7 rfl
      (by decide)).2.1 rfl rfl
  · exact ((claim_C2 (fun _ => false) ⟨[7, 9], 40, some (405 / 10), false⟩ (405 / 10) 7 rfl
      (by decide)).2.2 rfl rfl).1
  · exact ((claim_C2 (fun _ => false) ⟨[7, 9], 40, some (405 / 10), false⟩ (405 / 10) 7 rfl
      (by decide)).2.2 rfl rfl).2.1 (by decide)
  · exact ((claim_C2 (fun _ => false) ⟨[7, 9], 40, some (405 / 10), false⟩ (405 / 10) 7 rfl
      (by decide)).2.2 rfl rfl).2.2.1
  · exact ((claim_C2 (fun _ => false) ⟨[7, 9], 40, some (405 / 10), false⟩ (405 / 10) 7 rfl
      (by decide)).2.2 rfl rfl).2.2.2

/-- A change of one whole unit meets the half-unit threshold. -/
lemma thr_one : MIN_CHANGE_THRESHOLD ≤ |(41 : ℚ) - 40| := by
  rw [show ((41 : ℚ) - 40) = 1 by norm_num, abs_one]
  unfold MIN_CHANGE_THRESHOLD
  norm_num

/-- C4: on a notifying tick, delivery is attempted for every subscriber no
matter which individual sends fail (each failure is caught and only drops
its own delivery), and afterwards the Last-Broadcast Value equals the
Tracked Value at send time regardless of how many deliveries failed. -/
theorem claim_C4 (fails : ℤ → Bool) (s : TrackerState) (v : ℚ) (l : List ℤ)
    (hv : s.current_value = some v)
    (hth : MIN_CHANGE_THRESHOLD ≤ |v - s.last_urine_level|) :
    (monitor_urine_level fails s).1.last_urine_level = v ∧
    (monitor_urine_level fails s).2.map Broadcast.attempted = some s.subscribers ∧
    (monitor_urine_level fails s).2.map Broadcast.delivered =
      some (s.subscribers.filter (fun c => !(fails c))) ∧
    (sendAll fails l).1 = l := by
  rw [monitor_some fails s v hv, if_pos hth]
  exact ⟨rfl, by simp [sendAll_fst], by simp [sendAll_snd], sendAll_fst fails l⟩

/-- Witness for C4: the send to subscriber 5 fails, delivery is still
attempted for both subscribers, and the Last-Broadcast Value becomes 41. -/
theorem claim_C4_witness :
    (⟨[5, 7], 40, some 41, false⟩ : TrackerState).current_value = some 41 ∧
    MIN_CHANGE_THRESHOLD ≤ |(41 : ℚ) - 40| ∧
    (monitor_urine_level (fun c => c == 5) ⟨[5, 7], 40, some 41, false⟩).1.last_urine_level =
      41 ∧
    (monitor_urine_level (fun c => c == 5) ⟨[5, 7], 40, some 41, false⟩).2.map
      Broadcast.attempted = some [5, 7] ∧
    (monitor_urine_level (fun c => c == 5) ⟨[5, 7], 40, some 41, false⟩).2.map
      Broadcast.delivered = some ([(5 : ℤ), 7].filter (fun c => !(c == 5))) ∧
    (sendAll (fun c => c == 5) [5, 7]).1 = [5, 7] := by
  refine ⟨rfl, thr_one, ?_, ?_, ?_, ?_⟩
  · exact (claim_C4 (fun c => c == 5) ⟨[5, 7], 40, some 41, false⟩ 41 [5, 7] rfl thr_one).1
  · exact (claim_C4 (fun c => c == 5) ⟨[5, 7], 40, some 41, false⟩ 41 [5, 7] rfl
      thr_one).2.1
  · exact (claim_C4 (fun c => c == 5) ⟨[5, 7], 40, some 41, false⟩ 41 [5, 7] rfl
      thr_one).2.2.1
  · exact (claim_C4 (fun c => c == 5) ⟨[5, 7], 40, some 41, false⟩ 41 [5, 7] rfl
      thr_one).2.2.2

/-- C1 counterexample: an initial snapshot frame is not a tick and sends no
message to anyone, yet it changes the Last-Broadcast Value (from 0 to 42),
so `last_urine_level` does not change only in lockstep with outbound
notifications. -/
theorem claim_C1_counterexample :
    (step ⟨[], 0, none, false⟩ (Event.feed (UpdateEvent.snapshot (some "42.0")))).2 = false ∧
    (step ⟨[], 0, none, false⟩
        (Event.feed (UpdateEvent.snapshot (some "42.0")))).1.last_urine_level ≠
      (⟨[], 0, none, false⟩ : TrackerState).last_urine_level := by
  refine ⟨rfl, ?_⟩
  rw [step_feed]
  show (onItemUpdate ⟨[], 0, none, false⟩
    (UpdateEvent.snapshot (some "42.0"))).last_urine_level ≠ 0
  rw [onItemUpdate_snapshot_some, parseFloat_fortytwo]
  show (42 : ℚ) ≠ 0
  norm_num

/-- C1 (amended): `last_urine_level` changes only on a tick that broadcasts
a notification or on an initial snapshot whose Value field parses; every
step that neither broadcasts nor is a parseable snapshot leaves it
unchanged. -/
theorem claim_C1_amended (s : TrackerState) (e : Event)
    (hnotify : (step s e).2 = false)
    (hsnap : ∀ raw, e = Event.feed (UpdateEvent.snapshot (some raw)) →
      parseFloat raw = none) :
    (step s e).1.last_urine_level = s.last_urine_level := by
  cases e with
  | feed u =>
    rw [step_feed]
    cases u with
    | snapshot ov =>
      cases ov with
      | none => rfl
      | some raw =>
        have hp := hsnap raw rfl
        rw [onItemUpdate_snapshot_some, hp]
    | item n v ts st =>
      rw [onItemUpdate_item]
      by_cases hn : n = "NODE3000005"
      · rw [if_pos hn]
        cases v with
        | none => rfl
        | some raw =>
          show (match parseFloat raw with
            | some x => { s with current_value := some x }
            | none => s).last_urine_level = s.last_urine_level
          cases hp : parseFloat raw with
          | none => rfl
          | some x => rfl
      · rw [if_neg hn]
  | statusChange st =>
    rw [step_status]
    unfold onStatusChange
    split_ifs <;> rfl
  | tick fails =>
    rw [step_tick] at hnotify ⊢
    cases hcv : s.current_value with
    | none => rw [monitor_none fails s hcv]
    | some v =>
      rw [monitor_some fails s v hcv] at hnotify ⊢
      by_cases h : MIN_CHANGE_THRESHOLD ≤ |v - s.last_urine_level|
      · rw [if_pos h] at hnotify
        simp at hnotify
      · rw [if_neg h]

/-- Witness for C1 at a below-threshold tick: no broadcast, and the
Last-Broadcast Value stays 40. -/
theorem claim_C1_witness :
    (step ⟨[], 40, some (404 / 10), false⟩ (Event.tick (fun _ => false))).2 = false ∧
    (step ⟨[], 40, some (404 / 10), false⟩
      (Event.tick (fun _ => false))).1.last_urine_level = 40 := by
  have h2 : (step (⟨[], 40, some (404 / 10), false⟩ : TrackerState)
      (Event.tick (fun _ => false))).2 = false := by
    rw [step_tick, monitor_some (fun _ => false) _ (404 / 10) rfl]
    rw [if_neg thr_below]
    rfl
  exact ⟨h2, claim_C1_amended ⟨[], 40, some (404 / 10), false⟩ (Event.tick (fun _ => false))
    h2 (fun raw h => Event.noConfusion h)⟩

/-- Deduplicating a list does not change the set of its elements. -/
lemma toFinset_dedup_list (l : List ℤ) : l.dedup.toFinset = l.toFinset :=
  List.toFinset.ext_iff.mpr (fun _ => List.mem_dedup)

/-- C3 counterexample: the content "+1" loads successfully to the set {1},
but re-saving that set writes the canonical line "1", so save-after-load
changes the persisted set of lines. -/
theorem claim_C3_counterexample :
    load_subscribers (some "+1") = Except.ok [1] ∧
    save_subscribers [1] = "1" ∧
    (pySplitlines (save_subscribers [1])).toFinset ≠ (pySplitlines "+1").toFinset := by
  refine ⟨rfl, rfl, ?_⟩
  decide

/-- C3 (amended): saving any iteration order of a set and loading it back
yields exactly that set (the empty set included); and when every line of a
loadable file is the canonical decimal rendering of an integer, re-saving
the loaded set (in any iteration order) keeps the same set of lines. -/
theorem claim_C3_amended (ord : List ℤ) (content : String) (subs ord2 : List ℤ)
    (hcanon : ∀ line ∈ pySplitlines content, ∃ z : ℤ, line = intStr z)
    (hload : load_subscribers (some content) = Except.ok subs)
    (henum : ord2.toFinset = subs.toFinset) :
    (load_subscribers (some (save_subscribers ord)) = Except.ok ord.dedup ∧
      ord.dedup.toFinset = ord.toFinset) ∧
    (pySplitlines (save_subscribers ord2)).toFinset = (pySplitlines content).toFinset := by
  constructor
  · constructor
    · show (match mapParse (pySplitlines (save_subscribers ord)) with
        | none => Except.error ()
        | some vals => Except.ok vals.dedup) = Except.ok ord.dedup
      rw [pySplitlines_save, mapParse_map_intStr]
    · exact toFinset_dedup_list ord
  · revert hload
    show (match mapParse (pySplitlines content) with
      | none => Except.error ()
      | some vals => Except.ok vals.dedup) = Except.ok subs → _
    cases hmp : mapParse (pySplitlines content) with
    | none => intro hload; cases hload
    | some vals =>
      intro hload
      have hsubs : subs = vals.dedup := by
        injection hload with h
        exact h.symm
      have hlines : pySplitlines content = vals.map intStr :=
        mapParse_canonical _ _ hmp hcanon
      have hsv : subs.toFinset = vals.toFinset := by
        simp [hsubs, toFinset_dedup_list]
      have hmem : ∀ z : ℤ, z ∈ ord2 ↔ z ∈ vals := by
        intro z
        have := List.toFinset.ext_iff.mp (henum.trans hsv) z
        simpa using this
      rw [pySplitlines_save, hlines]
      refine List.toFinset.ext_iff.mpr (fun x => ?_)
      simp only [List.mem_map]
      constructor
      · rintro ⟨z, hz, rfl⟩
        exact ⟨z, (hmem z).mp hz, rfl⟩
      · rintro ⟨z, hz, rfl⟩
        exact ⟨z, (hmem z).mpr hz, rfl⟩

/-- Witness for C3: a round trip through save-then-load, and a canonical
two-line file re-saved in a different iteration order keeping the same set
of lines. -/
theorem claim_C3_witness :
    (∀ line ∈ pySplitlines "2\n-7", ∃ z : ℤ, line = intStr z) ∧
    load_subscribers (some "2\n-7") = Except.ok [2, -7] ∧
    ([(-7 : ℤ), 2]).toFinset = ([(2 : ℤ), -7]).toFinset ∧
    (load_subscribers (some (save_subscribers [3, -2, 3])) =
        Except.ok ([(3 : ℤ), -2, 3]).dedup ∧
      ([(3 : ℤ), -2, 3]).dedup.toFinset = ([(3 : ℤ), -2, 3]).toFinset) ∧
    (pySplitlines (save_subscribers [-7, 2])).toFinset =
      (pySplitlines "2\n-7").toFinset := by
  have hcanon : ∀ line ∈ pySplitlines "2\n-7", ∃ z : ℤ, line = intStr z := by
    intro line hl
    rw [show pySplitlines "2\n-7" = ["2", "-7"] from rfl] at hl
    rcases List.mem_cons.mp hl with rfl | hl2
    · exact ⟨2, by decide⟩
    · rcases List.mem_cons.mp hl2 with rfl | hl3
      · exact ⟨-7, by decide⟩
      · simp at hl3
  have hload : load_subscribers (some "2\n-7") = Except.ok [2, -7] := rfl
  have henum : ([(-7 : ℤ), 2]).toFinset = ([(2 : ℤ), -7]).toFinset := by decide
  exact ⟨hcanon, hload, henum,
    (claim_C3_amended [3, -2, 3] "2\n-7" [2, -7] [-7, 2] hcanon hload henum).1,
    (claim_C3_amended [3, -2, 3] "2\n-7" [2, -7] [-7, 2] hcanon hload henum).2⟩

end ISSBot
